import Mathlib

/-!
Verification development for the `locust-cache-benchmark` repository.

The definitions below are a shallow embedding of the request-generation and
outcome-accounting engine of the benchmark:

* `locust_redis_get` / `locust_redis_set` embed
  `cache_benchmark/locust_cache.py` (the Resilient Operation Executor:
  a tenacity `Retrying` loop around one cache operation, firing one
  stats-sink event per attempt and recording tracing spans);
* `cache_scenario` and `summarize` embed
  `cache_benchmark/scenario.py` (`RedisTaskSet.cache_scenario`,
  `RedisTaskSet.on_stop`);
* `connStep` / `runConn` embed the reference-counted shared-connection
  lifecycle of `RedisUser._get_shared_connection` /
  `RedisUser._release_shared_connection`;
* `generate_string` embeds `cache_benchmark/utils.py`.

Machine behaviour that the program consumes as input (the cache client's
per-attempt responses, `random.random()`, `random.randint`, `time.time_ns`,
the SHA-256 digest function) is passed in explicitly, so every definition is
an executable function of its inputs.
-/

/-- Exception kinds relevant to `locust_cache.py`.  The first three are the
members of `_RETRYABLE_EXCEPTIONS = (TimeoutError, ConnectionError,
ClusterDownError)`; `otherErr` stands for any other `Exception`. -/
inductive PyExn where
  | timeoutErr
  | connectionErr
  | clusterDownErr
  | otherErr (msg : String)
deriving DecidableEq, Repr

/-- The `isinstance(e, _RETRYABLE_EXCEPTIONS)` test of `locust_cache.py`
(line 10 and lines 76/137). -/
def isRetryableExn : PyExn → Bool
  | .timeoutErr => true
  | .connectionErr => true
  | .clusterDownErr => true
  | .otherErr _ => false

/-- One `environment.events.request.fire(...)` call: the fields the claims
are about (`request_type`, `name`, `exception`); response time is wall-clock
and not modelled. -/
structure FireEvent where
  request_type : String
  name : String
  exception : Option PyExn
deriving DecidableEq, Repr

/-- Behaviour of the cache client on one attempt: return a value (for GET a
Python value or `None`; for SET the success flag) or raise an exception. -/
inductive AttemptOutcome (α : Type) where
  | ok (v : Option α)
  | exn (e : PyExn)
deriving DecidableEq, Repr

/-- `_get_request_type` of `locust_cache.py`: `"Valkey"` for the two valkey
cache types, `"Redis"` otherwise. -/
def getRequestType (cacheType : String) : String :=
  if cacheType = "valkey_cluster" ∨ cacheType = "valkey" then "Valkey" else "Redis"

/-- Exit of the `with attempt:` body (the inner `try/except` of
`locust_redis_get`/`locust_redis_set`): either the body completes normally
with the current value of `result`, or it re-raises the exception into
tenacity. -/
inductive BodyExit (α : Type) where
  | ret (r : Option α)
  | raised (e : PyExn)
deriving DecidableEq, Repr

/-- The inner `try/except` around one cache call (`locust_cache.py` lines
52-78 for GET, 113-139 for SET).  On success it fires a no-exception event;
on an exception it records the exception on the span (sets ERROR status,
counted here as one error span), fires an event carrying the exception, and
then re-raises exactly when the exception is retryable, otherwise sets
`result = None` and completes normally. -/
def cacheAttempt (rtype fname : String) (o : AttemptOutcome α) :
    BodyExit α × List FireEvent × Nat :=
  match o with
  | .ok v => (.ret v, [⟨rtype, fname, none⟩], 0)
  | .exn e =>
    if isRetryableExn e then
      (.raised e, [⟨rtype, fname, some e⟩], 1)
    else
      (.ret none, [⟨rtype, fname, some e⟩], 1)

/-- Final disposition of the tenacity `Retrying` loop: the body completed
normally (`done`), the retry budget was exhausted (`RetryError`), or a
non-matching exception propagated out of the loop. -/
inductive TenOutcome (α : Type) where
  | done (r : Option α)
  | retriesExhausted
  | propagated (e : PyExn)
deriving DecidableEq, Repr

/-- Accumulated observable behaviour of the `for attempt in retryer:` loop. -/
structure TenRun (α : Type) where
  outcome : TenOutcome α
  fires : List FireEvent
  errorSpans : Nat
  attemptsMade : Nat
deriving DecidableEq, Repr

/-- The tenacity `Retrying` loop with `stop=stop_after_attempt(fuel)`,
`retry=retry_if_exception_type(_RETRYABLE_EXCEPTIONS)`, starting at attempt
index `i`.  Each attempt runs `cacheAttempt` on the client's behaviour
`conn i`.  A raised exception matching the retry predicate consumes one
attempt and continues (raising `RetryError` when the budget is gone); a
non-matching raised exception propagates. -/
def tenacityLoop (rtype fname : String) (conn : Nat → AttemptOutcome α)
    (i : Nat) : Nat → TenRun α
  | 0 => ⟨.retriesExhausted, [], 0, 0⟩
  | fuel + 1 =>
    match cacheAttempt rtype fname (conn i) with
    | (.ret r, fs, es) => ⟨.done r, fs, es, 1⟩
    | (.raised e, fs, es) =>
      if isRetryableExn e then
        let rest := tenacityLoop rtype fname conn (i + 1) fuel
        ⟨rest.outcome, fs ++ rest.fires, es + rest.errorSpans, 1 + rest.attemptsMade⟩
      else
        ⟨.propagated e, fs, es, 1⟩

/-- Result of one executor invocation: the Python return value, an exception
propagating to the caller (if any), and the observable side effects. -/
structure ExecResult (α : Type) where
  result : Option α
  raisedOut : Option PyExn
  fires : List FireEvent
  errorSpans : Nat
  attemptsMade : Nat
deriving DecidableEq, Repr

/-- The outer `try ... except RetryError:` of both executors: a normal loop
exit returns the loop's `result` value, an exhausted retry budget
(`RetryError`) is caught and yields `None`, while any other exception
propagates to the caller uncaught. -/
def execOfTen (t : TenRun α) : ExecResult α :=
  match t.outcome with
  | .done r => ⟨r, none, t.fires, t.errorSpans, t.attemptsMade⟩
  | .retriesExhausted => ⟨none, none, t.fires, t.errorSpans, t.attemptsMade⟩
  | .propagated e => ⟨none, some e, t.fires, t.errorSpans, t.attemptsMade⟩

/-- `LocustCache.locust_redis_get` (`locust_cache.py` lines 25-82):
`result = None`; run the tenacity loop with `RETRY_ATTEMPTS` attempts; catch
`RetryError` and return `None`; otherwise return the loop's result. -/
def locust_redis_get (cacheType : String) (conn : Nat → AttemptOutcome String)
    (retryAttempts : Nat) (name : String) : ExecResult String :=
  execOfTen (tenacityLoop (getRequestType cacheType) ("get_value_" ++ name) conn 0 retryAttempts)

/-- `LocustCache.locust_redis_set` (`locust_cache.py` lines 84-143): same
structure as the GET executor with event name `set_value_<name>`; the
returned value is the client's success flag. -/
def locust_redis_set (cacheType : String) (conn : Nat → AttemptOutcome Bool)
    (retryAttempts : Nat) (name : String) : ExecResult Bool :=
  execOfTen (tenacityLoop (getRequestType cacheType) ("set_value_" ++ name) conn 0 retryAttempts)

/-- `generate_string` of `cache_benchmark/utils.py`:
`"A" * (int(size_in_kb) * 1024)`. -/
def generate_string (size_in_kb : Nat) : String :=
  String.mk (List.replicate (size_in_kb * 1024) 'A')

/-- The class-level counters of `RedisTaskSet` (`scenario.py` lines 18-19). -/
structure Counters where
  total_requests : Nat
  cache_hits : Nat
deriving DecidableEq, Repr

/-- The configuration fields of `AppConfig` that `cache_scenario` reads. -/
structure ScenarioCfg where
  hit_rate : ℚ
  set_keys : Nat
  value_size : Nat
  ttl : Nat
deriving DecidableEq, Repr

/-- One `LocustCache` call issued by `cache_scenario`, with its arguments. -/
inductive CacheOp where
  | get (key : String) (name : String)
  | set (key : String) (value : String) (name : String) (ttl : Nat)
deriving DecidableEq, Repr

/-- Machine inputs consumed by one `cache_scenario` invocation: whether
`self.user.cache_conn` is present and non-`None`, the `random.random()`
draw, the `random.randint(1, set_keys)` result, the `time.time_ns()`
reading, and the value the GET executor returns (`locust_redis_get` is
total by `C3_no_exception_propagates`, so it is summarised by its returned
`Option` value here). -/
structure ScenarioInput where
  connAvailable : Bool
  draw : ℚ
  keyIdx : Nat
  timeNs : Nat
  getResult : Option String
deriving DecidableEq, Repr

/-- Result of one `cache_scenario` invocation: updated counters, the cache
operations issued (in order), and whether the no-connection warning was
logged. -/
structure ScenarioOut where
  counters : Counters
  ops : List CacheOp
  warned : Bool
deriving DecidableEq, Repr

/-- Miss-path key derivation (`scenario.py` line 51):
`hashlib.sha256(str(time.time_ns()).encode()).hexdigest()`, with the SHA-256
hex-digest function passed in as `sha`. -/
def missKey (sha : String → String) (timeNs : Nat) : String :=
  sha (Nat.repr timeNs)

/-- `RedisTaskSet.cache_scenario` (`scenario.py` lines 30-56).
`total_requests += 1` happens first; with no connection it logs a warning
and returns; with `random.random() < hit_rate` it takes the hit path on key
`key_<randint>` (counting a hit iff the GET result is not `None`, issuing a
SET of a `value_size`-KB value iff it is `None`); otherwise it takes the
miss path on the hashed-timestamp key with scenario label `"dummy"`. -/
def cache_scenario (sha : String → String) (cfg : ScenarioCfg)
    (st : Counters) (inp : ScenarioInput) : ScenarioOut :=
  let st1 : Counters := { st with total_requests := st.total_requests + 1 }
  if inp.connAvailable = false then
    ⟨st1, [], true⟩
  else if inp.draw < cfg.hit_rate then
    let key := "key_" ++ Nat.repr inp.keyIdx
    let st2 :=
      if inp.getResult.isSome then
        { st1 with cache_hits := st1.cache_hits + 1 }
      else st1
    let ops :=
      CacheOp.get key "default" ::
        (if inp.getResult.isNone then
          [CacheOp.set key (generate_string cfg.value_size) "default" cfg.ttl]
        else [])
    ⟨st2, ops, false⟩
  else
    let key := missKey sha inp.timeNs
    let ops :=
      CacheOp.get key "dummy" ::
        (if inp.getResult.isNone then
          [CacheOp.set key (generate_string cfg.value_size) "dummy" cfg.ttl]
        else [])
    ⟨st1, ops, false⟩

/-- Fold a sequence of `cache_scenario` invocations over the shared
counters (the operations and warnings are per-invocation side effects). -/
def runScenarios (sha : String → String) (cfg : ScenarioCfg)
    (st : Counters) : List ScenarioInput → Counters
  | [] => st
  | inp :: rest => runScenarios sha cfg (cache_scenario sha cfg st inp).counters rest

/-- The end-of-run summary value of `RedisTaskSet.on_stop`
(`scenario.py` lines 20-28): the explicit not-applicable marker, or the hit
rate `(cache_hits / total_requests) * 100`. -/
inductive Summary where
  | notApplicable
  | hitRatePct (q : ℚ)
deriving DecidableEq, Repr

/-- `RedisTaskSet.on_stop` branches on `total_requests > 0` and only then
computes `(cache_hits / total_requests) * 100`. -/
def summarize (st : Counters) : Summary :=
  if 0 < st.total_requests then
    .hitRatePct (((st.cache_hits : ℚ) / (st.total_requests : ℚ)) * 100)
  else
    .notApplicable

/-- Events on the shared-connection state of `RedisUser`: an acquire
(`_get_shared_connection`), carrying whether connection construction would
succeed if attempted (`CacheConnect.*_connect` returns the handle or `None`,
swallowing construction errors), and a release
(`_release_shared_connection`). -/
inductive ConnEvent where
  | acquire (constructOk : Bool)
  | release
deriving DecidableEq, Repr

/-- Shared-connection state of `RedisUser` (`scenario.py` lines 62-98) plus
ghost observers.  `conn` is `_shared_cache_conn is not None`; `users` is
`_shared_conn_users` (an `int`, so modelled on `ℤ`); `holders` counts
callers currently holding a usable handle; `constructs` counts construction
attempts, `constructsHeld` those made while some reference was held;
`closes` counts `close()` calls; `failures` counts acquires that returned
`None`. -/
structure ConnState where
  conn : Bool
  users : ℤ
  holders : Nat
  constructs : Nat
  constructsHeld : Nat
  closes : Nat
  failures : Nat
deriving DecidableEq, Repr

/-- Initial class-level state: `_shared_cache_conn = None`,
`_shared_conn_users = 0`. -/
def connInit : ConnState := ⟨false, 0, 0, 0, 0, 0, 0⟩

/-- One step of the lifecycle manager, under `_conn_lock`.
Acquire (`scenario.py` lines 67-84): if no handle exists, construct one
(which may fail, leaving `None`); then `_shared_conn_users += 1`
unconditionally; the caller becomes a holder iff the returned handle is
usable.  Release (lines 86-98): `_shared_conn_users -= 1`; if the count is
`<= 0` and a handle exists, `close()` it, set it to `None` and reset the
count to 0. -/
def connStep (s : ConnState) : ConnEvent → ConnState
  | .acquire ok =>
    if s.conn then
      { s with users := s.users + 1, holders := s.holders + 1 }
    else if ok then
      { s with conn := true, users := s.users + 1, holders := s.holders + 1,
               constructs := s.constructs + 1,
               constructsHeld := s.constructsHeld + (if 0 < s.holders then 1 else 0) }
    else
      { s with users := s.users + 1,
               constructs := s.constructs + 1,
               constructsHeld := s.constructsHeld + (if 0 < s.holders then 1 else 0),
               failures := s.failures + 1 }
  | .release =>
    if s.users - 1 ≤ 0 ∧ s.conn then
      { s with users := 0, conn := false, closes := s.closes + 1,
               holders := s.holders - 1 }
    else
      { s with users := s.users - 1, holders := s.holders - 1 }

/-- Run a sequence of lifecycle events. -/
def runConn (s : ConnState) : List ConnEvent → ConnState
  | [] => s
  | e :: t => runConn (connStep s e) t

/-- A trace is well formed when every release is performed by a caller that
still holds a usable handle (in the source, `RedisUser.on_stop` only calls
`_release_shared_connection` when `self._connected`, which `on_start` sets
only for a non-`None` handle). -/
def wfConn (s : ConnState) : List ConnEvent → Bool
  | [] => true
  | e :: t =>
    (match e with
     | .release => decide (0 < s.holders)
     | .acquire _ => true) && wfConn (connStep s e) t

/-- An attempt outcome that makes the executor re-attempt: the client raised
an exception and it is one of the retryable kinds. -/
def attemptContinues : AttemptOutcome α → Bool
  | .exn e => isRetryableExn e
  | .ok _ => false

/-- Numeric value of a big-endian list of decimal digit characters; used
only to show that the decimal rendering `str(time_ns())` (`Nat.repr` in
this embedding) is injective. -/
def decimalVal : List Char → Nat
  | [] => 0
  | c :: cs => (c.toNat - 48) * 10 ^ cs.length + decimalVal cs

lemma tenacityLoop_ok {conn : Nat → AttemptOutcome α} {i : Nat} {v : Option α}
    (rtype fname : String) (n : Nat) (hc : conn i = .ok v) :
    tenacityLoop rtype fname conn i (n + 1) =
      ⟨.done v, [⟨rtype, fname, none⟩], 0, 1⟩ := by
  simp [tenacityLoop, cacheAttempt, hc]

lemma tenacityLoop_exn_retry {conn : Nat → AttemptOutcome α} {i : Nat} {e : PyExn}
    (rtype fname : String) (n : Nat) (hc : conn i = .exn e)
    (hr : isRetryableExn e = true) :
    tenacityLoop rtype fname conn i (n + 1) =
      ⟨(tenacityLoop rtype fname conn (i + 1) n).outcome,
       ⟨rtype, fname, some e⟩ :: (tenacityLoop rtype fname conn (i + 1) n).fires,
       1 + (tenacityLoop rtype fname conn (i + 1) n).errorSpans,
       1 + (tenacityLoop rtype fname conn (i + 1) n).attemptsMade⟩ := by
  simp [tenacityLoop, cacheAttempt, hc, hr]

lemma tenacityLoop_exn_term {conn : Nat → AttemptOutcome α} {i : Nat} {e : PyExn}
    (rtype fname : String) (n : Nat) (hc : conn i = .exn e)
    (hr : isRetryableExn e = false) :
    tenacityLoop rtype fname conn i (n + 1) =
      ⟨.done none, [⟨rtype, fname, some e⟩], 1, 1⟩ := by
  simp [tenacityLoop, cacheAttempt, hc, hr]

lemma tenacityLoop_no_propagate (rtype fname : String) (conn : Nat → AttemptOutcome α) :
    ∀ (fuel i : Nat) (e : PyExn),
      (tenacityLoop rtype fname conn i fuel).outcome ≠ .propagated e := by
  intro fuel
  induction fuel with
  | zero => intro i e h; simp [tenacityLoop] at h
  | succ n ih =>
    intro i e
    cases hc : conn i with
    | ok v => rw [tenacityLoop_ok rtype fname n hc]; simp
    | exn e2 =>
      cases hr : isRetryableExn e2 with
      | true => rw [tenacityLoop_exn_retry rtype fname n hc hr]; exact ih (i + 1) e
      | false => rw [tenacityLoop_exn_term rtype fname n hc hr]; simp

lemma tenacityLoop_fires_length (rtype fname : String) (conn : Nat → AttemptOutcome α) :
    ∀ (fuel i : Nat),
      (tenacityLoop rtype fname conn i fuel).fires.length
        = (tenacityLoop rtype fname conn i fuel).attemptsMade := by
  intro fuel
  induction fuel with
  | zero => intro i; simp [tenacityLoop]
  | succ n ih =>
    intro i
    cases hc : conn i with
    | ok v =>
      rw [tenacityLoop_ok rtype fname n hc]
      rfl
    | exn e2 =>
      cases hr : isRetryableExn e2 with
      | true =>
        rw [tenacityLoop_exn_retry rtype fname n hc hr]
        dsimp only
        rw [List.length_cons, ih (i + 1)]
        omega
      | false =>
        rw [tenacityLoop_exn_term rtype fname n hc hr]
        rfl

lemma tenacityLoop_attempts_iff (rtype fname : String) (conn : Nat → AttemptOutcome α) :
    ∀ (fuel i k : Nat),
      (k + 1 ≤ (tenacityLoop rtype fname conn i fuel).attemptsMade)
        ↔ (k + 1 ≤ fuel ∧ ∀ j, j < k → attemptContinues (conn (i + j)) = true) := by
  intro fuel
  induction fuel with
  | zero =>
    intro i k
    simp only [tenacityLoop]
    constructor
    · intro h; exact absurd h (by omega)
    · rintro ⟨h, -⟩; exact absurd h (by omega)
  | succ n ih =>
    intro i k
    cases hc : conn i with
    | ok v =>
      rw [tenacityLoop_ok rtype fname n hc]
      dsimp only
      constructor
      · intro h
        have hk : k = 0 := by omega
        subst hk
        exact ⟨by omega, fun j hj => absurd hj (by omega)⟩
      · rintro ⟨-, h2⟩
        by_contra hk
        have hkpos : 0 < k := by
          simp only [not_le] at hk
          omega
        have h0 := h2 0 hkpos
        rw [Nat.add_zero, hc] at h0
        simp [attemptContinues] at h0
    | exn e2 =>
      cases hr : isRetryableExn e2 with
      | false =>
        rw [tenacityLoop_exn_term rtype fname n hc hr]
        dsimp only
        constructor
        · intro h
          have hk : k = 0 := by omega
          subst hk
          exact ⟨by omega, fun j hj => absurd hj (by omega)⟩
        · rintro ⟨-, h2⟩
          by_contra hk
          have hkpos : 0 < k := by
            simp only [not_le] at hk
            omega
          have h0 := h2 0 hkpos
          rw [Nat.add_zero, hc] at h0
          simp [attemptContinues, hr] at h0
      | true =>
        rw [tenacityLoop_exn_retry rtype fname n hc hr]
        dsimp only
        cases k with
        | zero =>
          constructor
          · intro _; exact ⟨by omega, fun j hj => absurd hj (by omega)⟩
          · intro _; omega
        | succ k2 =>
          constructor
          · intro h
            have h2 : k2 + 1 ≤ (tenacityLoop rtype fname conn (i + 1) n).attemptsMade := by
              omega
            obtain ⟨hb, hall⟩ := (ih (i + 1) k2).mp h2
            refine ⟨by omega, ?_⟩
            intro j hj
            cases j with
            | zero => rw [Nat.add_zero, hc]; simp [attemptContinues, hr]
            | succ j2 =>
              have := hall j2 (by omega)
              rwa [show i + 1 + j2 = i + (j2 + 1) by omega] at this
          · rintro ⟨hb, hall⟩
            have hall2 : ∀ j, j < k2 → attemptContinues (conn (i + 1 + j)) = true := by
              intro j hj
              have := hall (j + 1) (by omega)
              rwa [show i + (j + 1) = i + 1 + j by omega] at this
            have := (ih (i + 1) k2).mpr ⟨by omega, hall2⟩
            omega

lemma execOfTen_raisedOut {t : TenRun α}
    (h : ∀ e, t.outcome ≠ .propagated e) : (execOfTen t).raisedOut = none := by
  unfold execOfTen
  split
  · rfl
  · rfl
  · next e heq => exact absurd heq (h e)

lemma execOfTen_fires (t : TenRun α) : (execOfTen t).fires = t.fires := by
  unfold execOfTen
  split <;> rfl

lemma execOfTen_attemptsMade (t : TenRun α) :
    (execOfTen t).attemptsMade = t.attemptsMade := by
  unfold execOfTen
  split <;> rfl

/-- C1: the claim says that for a GET/SET failing on attempts `1..N-1` with a
retryable error and succeeding on attempt `N`, no failed outcome is fired and
no error span is recorded for the masked intermediate failures, and that when
every attempt fails exactly one failed outcome and one error span are
emitted.  The code violates this: every failing attempt fires a failed
outcome and records an error span before re-raising.  Evaluated at
`RETRY_ATTEMPTS = 3`: a GET whose client raises `ConnectionError` on every
attempt produces three failed fires and three error spans (not one), and a
GET that fails twice then succeeds produces two failed fires and two error
spans (not zero). -/
theorem C1_per_attempt_reporting_bug :
    ((locust_redis_get "redis_cluster" (fun _ => .exn .connectionErr) 3 "test").result = none
      ∧ (locust_redis_get "redis_cluster" (fun _ => .exn .connectionErr) 3 "test").errorSpans = 3
      ∧ ((locust_redis_get "redis_cluster" (fun _ => .exn .connectionErr) 3 "test").fires.filter
          (fun f => f.exception.isSome)).length = 3)
    ∧ ((locust_redis_get "redis_cluster"
          (fun i => if i < 2 then .exn .connectionErr else .ok (some "v")) 3 "test").result
            = some "v"
      ∧ (locust_redis_get "redis_cluster"
          (fun i => if i < 2 then .exn .connectionErr else .ok (some "v")) 3 "test").fires
            = [⟨"Redis", "get_value_test", some .connectionErr⟩,
               ⟨"Redis", "get_value_test", some .connectionErr⟩,
               ⟨"Redis", "get_value_test", none⟩]
      ∧ (locust_redis_get "redis_cluster"
          (fun i => if i < 2 then .exn .connectionErr else .ok (some "v")) 3 "test").errorSpans
            = 2) := by
  decide

/-- C2: for every exception raised by a cache GET or SET under either backend
family, the operation is re-attempted if and only if the exception is one of
the three transient kinds (and the configured attempt budget is not yet
exhausted): attempt `k + 1` is made exactly when the budget allows it and
every earlier attempt raised a retryable exception; any other exception kind
terminates the operation immediately. -/
theorem C2_retry_iff_transient :
    ∀ (cacheType nameG nameS : String) (gconn : Nat → AttemptOutcome String)
      (sconn : Nat → AttemptOutcome Bool) (attempts k : Nat),
      ((k + 1 ≤ (locust_redis_get cacheType gconn attempts nameG).attemptsMade)
        ↔ (k + 1 ≤ attempts ∧ ∀ j, j < k → attemptContinues (gconn j) = true))
      ∧ ((k + 1 ≤ (locust_redis_set cacheType sconn attempts nameS).attemptsMade)
        ↔ (k + 1 ≤ attempts ∧ ∀ j, j < k → attemptContinues (sconn j) = true)) := by
  intro cacheType nameG nameS gconn sconn attempts k
  unfold locust_redis_get locust_redis_set
  constructor
  · rw [execOfTen_attemptsMade]
    simpa using tenacityLoop_attempts_iff (getRequestType cacheType)
      ("get_value_" ++ nameG) gconn attempts 0 k
  · rw [execOfTen_attemptsMade]
    simpa using tenacityLoop_attempts_iff (getRequestType cacheType)
      ("set_value_" ++ nameS) sconn attempts 0 k

/-- Witness for `C2_retry_iff_transient`: with three configured attempts and
a client that always raises an operation timeout, a third attempt is made. -/
theorem C2_retry_iff_transient_witness :
    2 + 1 ≤ (locust_redis_get "redis_cluster" (fun _ => .exn .timeoutErr) 3 "default").attemptsMade :=
  (C2_retry_iff_transient "redis_cluster" "default" "default"
    (fun _ => .exn .timeoutErr) (fun _ => .ok (some true)) 3 2).1.mpr
    ⟨by decide, by decide⟩

/-- C3: no exception arising from a cache GET or SET ever propagates out of
`locust_redis_get` / `locust_redis_set`: for every client behaviour and
attempt budget the executor returns normally (`raisedOut = none`), having
fired one stats event per attempt (so at least one whenever at least one
attempt is configured). -/
theorem C3_no_exception_propagates :
    ∀ (cacheType nameG nameS : String) (gconn : Nat → AttemptOutcome String)
      (sconn : Nat → AttemptOutcome Bool) (attempts : Nat),
      (locust_redis_get cacheType gconn attempts nameG).raisedOut = none
      ∧ (locust_redis_set cacheType sconn attempts nameS).raisedOut = none
      ∧ (locust_redis_get cacheType gconn attempts nameG).fires.length
          = (locust_redis_get cacheType gconn attempts nameG).attemptsMade
      ∧ (locust_redis_set cacheType sconn attempts nameS).fires.length
          = (locust_redis_set cacheType sconn attempts nameS).attemptsMade
      ∧ (1 ≤ attempts → (locust_redis_get cacheType gconn attempts nameG).fires ≠ [])
      ∧ (1 ≤ attempts → (locust_redis_set cacheType sconn attempts nameS).fires ≠ []) := by
  intro cacheType nameG nameS gconn sconn attempts
  unfold locust_redis_get locust_redis_set
  refine ⟨execOfTen_raisedOut (tenacityLoop_no_propagate _ _ _ attempts 0),
          execOfTen_raisedOut (tenacityLoop_no_propagate _ _ _ attempts 0),
          ?_, ?_, ?_, ?_⟩
  · rw [execOfTen_fires, execOfTen_attemptsMade]
    exact tenacityLoop_fires_length _ _ _ attempts 0
  · rw [execOfTen_fires, execOfTen_attemptsMade]
    exact tenacityLoop_fires_length _ _ _ attempts 0
  · intro h1
    rw [execOfTen_fires]
    have hlen := tenacityLoop_fires_length (getRequestType cacheType)
      ("get_value_" ++ nameG) gconn attempts 0
    have hat := (tenacityLoop_attempts_iff (getRequestType cacheType)
      ("get_value_" ++ nameG) gconn attempts 0 0).mpr
      ⟨h1, fun j hj => absurd hj (by omega)⟩
    exact List.length_pos.mp (by omega)
  · intro h1
    rw [execOfTen_fires]
    have hlen := tenacityLoop_fires_length (getRequestType cacheType)
      ("set_value_" ++ nameS) sconn attempts 0
    have hat := (tenacityLoop_attempts_iff (getRequestType cacheType)
      ("set_value_" ++ nameS) sconn attempts 0 0).mpr
      ⟨h1, fun j hj => absurd hj (by omega)⟩
    exact List.length_pos.mp (by omega)

/-- Witness for `C3_no_exception_propagates` at a concrete input. -/
theorem C3_no_exception_propagates_witness :
    (locust_redis_get "redis_cluster" (fun _ => .ok (some "v")) 3 "default").raisedOut = none
    ∧ (locust_redis_get "redis_cluster" (fun _ => .ok (some "v")) 3 "default").fires ≠ []
    ∧ (locust_redis_set "redis_cluster" (fun _ => .ok (some true)) 3 "default").fires ≠ [] :=
  ⟨(C3_no_exception_propagates "redis_cluster" "default" "default"
      (fun _ => .ok (some "v")) (fun _ => .ok (some true)) 3).1,
   (C3_no_exception_propagates "redis_cluster" "default" "default"
      (fun _ => .ok (some "v")) (fun _ => .ok (some true)) 3).2.2.2.2.1 (by decide),
   (C3_no_exception_propagates "redis_cluster" "default" "default"
      (fun _ => .ok (some "v")) (fun _ => .ok (some true)) 3).2.2.2.2.2 (by decide)⟩

lemma cache_scenario_total (sha : String → String) (cfg : ScenarioCfg)
    (st : Counters) (inp : ScenarioInput) :
    (cache_scenario sha cfg st inp).counters.total_requests = st.total_requests + 1 := by
  cases hA : inp.connAvailable with
  | false => simp [cache_scenario, hA]
  | true =>
    by_cases h2 : inp.draw < cfg.hit_rate
    · by_cases h3 : inp.getResult.isSome <;>
        simp [cache_scenario, hA, h2, h3]
    · simp [cache_scenario, hA, h2]

lemma cache_scenario_hits (sha : String → String) (cfg : ScenarioCfg)
    (st : Counters) (inp : ScenarioInput) :
    (cache_scenario sha cfg st inp).counters.cache_hits
      = st.cache_hits
        + (if inp.connAvailable = true ∧ inp.draw < cfg.hit_rate ∧ inp.getResult.isSome = true
           then 1 else 0) := by
  cases hA : inp.connAvailable with
  | false => simp [cache_scenario, hA]
  | true =>
    by_cases h2 : inp.draw < cfg.hit_rate
    · cases h3 : inp.getResult.isSome <;>
        simp [cache_scenario, hA, h2, h3]
    · simp [cache_scenario, hA, h2]

lemma runScenarios_hits_le (sha : String → String) (cfg : ScenarioCfg) :
    ∀ (inps : List ScenarioInput) (st : Counters),
      st.cache_hits ≤ st.total_requests →
      (runScenarios sha cfg st inps).cache_hits
        ≤ (runScenarios sha cfg st inps).total_requests := by
  intro inps
  induction inps with
  | nil => intro st h; exact h
  | cons inp rest ih =>
    intro st h
    refine ih _ ?_
    rw [cache_scenario_total, cache_scenario_hits]
    split <;> omega

/-- C5: every invocation of `cache_scenario` increments `total_requests` by
exactly one, increments `cache_hits` by exactly one iff the connection was
available, the hit path was drawn and the GET returned a present value, and
consequently `cache_hits ≤ total_requests` holds after every run starting
from zeroed counters. -/
theorem C5_counter_accounting :
    (∀ (sha : String → String) (cfg : ScenarioCfg) (st : Counters) (inp : ScenarioInput),
      (cache_scenario sha cfg st inp).counters.total_requests = st.total_requests + 1)
    ∧ (∀ (sha : String → String) (cfg : ScenarioCfg) (st : Counters) (inp : ScenarioInput),
      (cache_scenario sha cfg st inp).counters.cache_hits
        = st.cache_hits
          + (if inp.connAvailable = true ∧ inp.draw < cfg.hit_rate ∧ inp.getResult.isSome = true
             then 1 else 0))
    ∧ (∀ (sha : String → String) (cfg : ScenarioCfg) (inps : List ScenarioInput),
      (runScenarios sha cfg ⟨0, 0⟩ inps).cache_hits
        ≤ (runScenarios sha cfg ⟨0, 0⟩ inps).total_requests) :=
  ⟨cache_scenario_total, cache_scenario_hits,
   fun sha cfg inps => runScenarios_hits_le sha cfg inps ⟨0, 0⟩ (Nat.le_refl 0)⟩

/-- C6: when the user's shared connection handle is absent, the invocation
logs the warning and returns without issuing any GET or SET and without
touching `cache_hits`, while `total_requests` is still incremented. -/
theorem C6_abstains_without_connection :
    ∀ (sha : String → String) (cfg : ScenarioCfg) (st : Counters) (inp : ScenarioInput),
      inp.connAvailable = false →
      (cache_scenario sha cfg st inp).warned = true
      ∧ (cache_scenario sha cfg st inp).ops = []
      ∧ (cache_scenario sha cfg st inp).counters.cache_hits = st.cache_hits
      ∧ (cache_scenario sha cfg st inp).counters.total_requests = st.total_requests + 1 := by
  intro sha cfg st inp hA
  refine ⟨?_, ?_, ?_, ?_⟩ <;> simp [cache_scenario, hA]

/-- Witness for `C6_abstains_without_connection` at a concrete input. -/
theorem C6_abstains_without_connection_witness :
    (cache_scenario (fun s => s) ⟨1/2, 1000, 1, 60⟩ ⟨7, 3⟩ ⟨false, 0, 1, 0, none⟩).warned = true
    ∧ (cache_scenario (fun s => s) ⟨1/2, 1000, 1, 60⟩ ⟨7, 3⟩ ⟨false, 0, 1, 0, none⟩).ops = []
    ∧ (cache_scenario (fun s => s) ⟨1/2, 1000, 1, 60⟩ ⟨7, 3⟩
        ⟨false, 0, 1, 0, none⟩).counters.cache_hits = 3
    ∧ (cache_scenario (fun s => s) ⟨1/2, 1000, 1, 60⟩ ⟨7, 3⟩
        ⟨false, 0, 1, 0, none⟩).counters.total_requests = 7 + 1 :=
  C6_abstains_without_connection (fun s => s) ⟨1/2, 1000, 1, 60⟩ ⟨7, 3⟩
    ⟨false, 0, 1, 0, none⟩ rfl

/-- C7: on the hit path, a present GET value is counted as a hit and no SET
is issued; an absent GET result triggers exactly one SET, to the same key,
of the generated value of `value_size * 1024` characters with the configured
TTL and scenario label `default`, and `cache_hits` is unchanged. -/
theorem C7_hit_path_write_back :
    ∀ (sha : String → String) (cfg : ScenarioCfg) (st : Counters) (inp : ScenarioInput),
      inp.connAvailable = true → inp.draw < cfg.hit_rate →
      (∀ v, inp.getResult = some v →
        (cache_scenario sha cfg st inp).ops
          = [CacheOp.get ("key_" ++ Nat.repr inp.keyIdx) "default"]
        ∧ (cache_scenario sha cfg st inp).counters.cache_hits = st.cache_hits + 1)
      ∧ (inp.getResult = none →
        (cache_scenario sha cfg st inp).ops
          = [CacheOp.get ("key_" ++ Nat.repr inp.keyIdx) "default",
             CacheOp.set ("key_" ++ Nat.repr inp.keyIdx)
               (generate_string cfg.value_size) "default" cfg.ttl]
        ∧ (generate_string cfg.value_size).length = cfg.value_size * 1024
        ∧ (cache_scenario sha cfg st inp).counters.cache_hits = st.cache_hits) := by
  intro sha cfg st inp hA h2
  constructor
  · intro v hv
    constructor <;> simp [cache_scenario, hA, h2, hv]
  · intro hv
    refine ⟨?_, ?_, ?_⟩
    · simp [cache_scenario, hA, h2, hv]
    · simp [generate_string]
    · simp [cache_scenario, hA, h2, hv]

/-- Witness for `C7_hit_path_write_back` at concrete inputs (a present GET
value and an absent one). -/
theorem C7_hit_path_write_back_witness :
    ((cache_scenario (fun s => s) ⟨1, 10, 2, 60⟩ ⟨5, 3⟩ ⟨true, 0, 7, 0, some "x"⟩).ops
        = [CacheOp.get ("key_" ++ Nat.repr 7) "default"]
      ∧ (cache_scenario (fun s => s) ⟨1, 10, 2, 60⟩ ⟨5, 3⟩
          ⟨true, 0, 7, 0, some "x"⟩).counters.cache_hits = 3 + 1)
    ∧ ((cache_scenario (fun s => s) ⟨1, 10, 2, 60⟩ ⟨5, 3⟩ ⟨true, 0, 7, 0, none⟩).ops
        = [CacheOp.get ("key_" ++ Nat.repr 7) "default",
           CacheOp.set ("key_" ++ Nat.repr 7) (generate_string 2) "default" 60]
      ∧ (generate_string 2).length = 2 * 1024
      ∧ (cache_scenario (fun s => s) ⟨1, 10, 2, 60⟩ ⟨5, 3⟩
          ⟨true, 0, 7, 0, none⟩).counters.cache_hits = 3) :=
  ⟨(C7_hit_path_write_back (fun s => s) ⟨1, 10, 2, 60⟩ ⟨5, 3⟩ ⟨true, 0, 7, 0, some "x"⟩
      rfl (by norm_num)).1 "x" rfl,
   (C7_hit_path_write_back (fun s => s) ⟨1, 10, 2, 60⟩ ⟨5, 3⟩ ⟨true, 0, 7, 0, none⟩
      rfl (by norm_num)).2 rfl⟩

/-- C9: the end-of-run summary reports the explicit not-applicable marker
exactly when `total_requests = 0`, and otherwise reports the percentage
`(cache_hits / total_requests) * 100` as an honest ratio (multiplying it
back by the total recovers `cache_hits * 100`, so no division by zero is
involved). -/
theorem C9_summary_division_guard :
    (∀ st : Counters, summarize st = .notApplicable ↔ st.total_requests = 0)
    ∧ (∀ st : Counters, 0 < st.total_requests →
        summarize st
          = .hitRatePct (((st.cache_hits : ℚ) / (st.total_requests : ℚ)) * 100)
        ∧ (((st.cache_hits : ℚ) / (st.total_requests : ℚ)) * 100) * (st.total_requests : ℚ)
            = (st.cache_hits : ℚ) * 100) := by
  constructor
  · intro st
    rcases Nat.eq_zero_or_pos st.total_requests with h | h
    · simp [summarize, h]
    · simp only [summarize, if_pos h]
      constructor
      · intro hcon; exact absurd hcon (by simp)
      · intro h0; omega
  · intro st h
    have hne : (st.total_requests : ℚ) ≠ 0 := Nat.cast_ne_zero.mpr (by omega)
    constructor
    · simp [summarize, h]
    · field_simp

/-- Witness for `C9_summary_division_guard` at concrete counters. -/
theorem C9_summary_division_guard_witness :
    summarize ⟨0, 0⟩ = .notApplicable
    ∧ summarize ⟨4, 1⟩ = .hitRatePct (((1 : ℚ) / (4 : ℚ)) * 100) :=
  ⟨(C9_summary_division_guard.1 ⟨0, 0⟩).mpr rfl,
   (C9_summary_division_guard.2 ⟨4, 1⟩ (by norm_num)).1⟩

lemma digitVal_digitChar (m : Nat) (h : m < 10) : (Nat.digitChar m).toNat - 48 = m := by
  interval_cases m <;> decide

lemma decimalVal_toDigitsCore :
    ∀ (fuel n : Nat) (ds : List Char), n < fuel →
      decimalVal (Nat.toDigitsCore 10 fuel n ds) = n * 10 ^ ds.length + decimalVal ds := by
  intro fuel
  induction fuel with
  | zero => intro n ds h; exact absurd h (Nat.not_lt_zero n)
  | succ f ih =>
    intro n ds h
    simp only [Nat.toDigitsCore]
    by_cases h0 : n / 10 = 0
    · have hn : n < 10 := by omega
      simp only [h0, if_true, decimalVal]
      rw [Nat.mod_eq_of_lt hn, digitVal_digitChar n hn]
    · simp only [h0, if_false]
      have hnpos : 10 ≤ n := by
        by_contra hcon
        exact h0 (Nat.div_eq_of_lt (by omega))
      have hlt : n / 10 < f := by
        have := Nat.div_lt_self (by omega : 0 < n) (by omega : 1 < 10)
        omega
      rw [ih (n / 10) (Nat.digitChar (n % 10) :: ds) hlt]
      simp only [decimalVal, List.length_cons]
      rw [digitVal_digitChar (n % 10) (Nat.mod_lt n (by omega))]
      have key : n / 10 * 10 ^ (ds.length + 1) + n % 10 * 10 ^ ds.length
          = n * 10 ^ ds.length := by
        have hdm : 10 * (n / 10) + n % 10 = n := Nat.div_add_mod n 10
        calc n / 10 * 10 ^ (ds.length + 1) + n % 10 * 10 ^ ds.length
            = (10 * (n / 10) + n % 10) * 10 ^ ds.length := by ring
          _ = n * 10 ^ ds.length := by rw [hdm]
      omega

lemma decimalVal_toDigits (n : Nat) : decimalVal (Nat.toDigits 10 n) = n := by
  unfold Nat.toDigits
  rw [decimalVal_toDigitsCore (n + 1) n [] (Nat.lt_succ_self n)]
  simp [decimalVal]

lemma natRepr_injective (m n : Nat) (h : Nat.repr m = Nat.repr n) : m = n := by
  have hd : Nat.toDigits 10 m = Nat.toDigits 10 n := by
    have hdata := congrArg String.data h
    simpa [Nat.repr, List.asString] using hdata
  have hv := congrArg decimalVal hd
  rwa [decimalVal_toDigits, decimalVal_toDigits] at hv

/-- C8: the miss-path key is `sha256hex(str(time_ns()))`; on the miss path
the GET is issued on exactly that key, and two invocations observing
distinct timestamps can only produce the same key if the digest function has
a genuine collision on two distinct input strings (the decimal renderings of
the timestamps are distinct because decimal rendering is injective). -/
theorem C8_miss_key_unique :
    (∀ (sha : String → String) (cfg : ScenarioCfg) (st : Counters) (inp : ScenarioInput),
      inp.connAvailable = true → ¬(inp.draw < cfg.hit_rate) →
      ∃ rest, (cache_scenario sha cfg st inp).ops
        = CacheOp.get (missKey sha inp.timeNs) "dummy" :: rest)
    ∧ (∀ (sha : String → String) (t1 t2 : Nat),
      t1 ≠ t2 → missKey sha t1 = missKey sha t2 →
      ∃ s1 s2 : String, s1 ≠ s2 ∧ sha s1 = sha s2) := by
  constructor
  · intro sha cfg st inp hA h2
    refine ⟨(if inp.getResult.isNone then
        [CacheOp.set (missKey sha inp.timeNs) (generate_string cfg.value_size) "dummy" cfg.ttl]
      else []), ?_⟩
    simp [cache_scenario, hA, h2]
  · intro sha t1 t2 hne heq
    exact ⟨Nat.repr t1, Nat.repr t2,
      fun hc => hne (natRepr_injective t1 t2 hc), heq⟩

/-- Witness for `C8_miss_key_unique` at concrete inputs (a constant digest
function, which trivially collides). -/
theorem C8_miss_key_unique_witness :
    (∃ rest, (cache_scenario (fun _ => "h") ⟨0, 10, 1, 60⟩ ⟨0, 0⟩
        ⟨true, 0, 1, 12345, none⟩).ops
        = CacheOp.get (missKey (fun _ => "h") 12345) "dummy" :: rest)
    ∧ ∃ s1 s2 : String, s1 ≠ s2 ∧ (fun _ : String => "h") s1 = (fun _ : String => "h") s2 :=
  ⟨C8_miss_key_unique.1 (fun _ => "h") ⟨0, 10, 1, 60⟩ ⟨0, 0⟩
      ⟨true, 0, 1, 12345, none⟩ rfl (lt_irrefl 0),
   C8_miss_key_unique.2 (fun _ => "h") 0 1 (by decide) rfl⟩

lemma connStep_acquire_users (s : ConnState) (ok : Bool) :
    (connStep s (.acquire ok)).users = s.users + 1 := by
  simp only [connStep]
  split_ifs <;> rfl

lemma connStep_failures_le (s : ConnState) (e : ConnEvent) :
    s.failures ≤ (connStep s e).failures := by
  cases e <;> simp only [connStep] <;> split_ifs <;> simp

lemma runConn_append (t1 t2 : List ConnEvent) :
    ∀ s : ConnState, runConn s (t1 ++ t2) = runConn (runConn s t1) t2 := by
  induction t1 with
  | nil => intro s; rfl
  | cons e rest ih => intro s; simp only [List.cons_append, runConn]; exact ih (connStep s e)

lemma wfConn_append (t1 t2 : List ConnEvent) :
    ∀ s : ConnState,
      wfConn s (t1 ++ t2) = (wfConn s t1 && wfConn (runConn s t1) t2) := by
  induction t1 with
  | nil => intro s; simp [wfConn, runConn]
  | cons e rest ih =>
    intro s
    simp only [List.cons_append, wfConn, runConn, List.append_eq,
      ih (connStep s e), Bool.and_assoc]

lemma runConn_failures_le : ∀ (t : List ConnEvent) (s : ConnState),
    s.failures ≤ (runConn s t).failures := by
  intro t
  induction t with
  | nil => intro s; exact Nat.le_refl _
  | cons e rest ih =>
    intro s
    exact Nat.le_trans (connStep_failures_le s e) (ih (connStep s e))

lemma runConn_invariant :
    ∀ (t : List ConnEvent) (s : ConnState),
      wfConn s t = true →
      0 ≤ s.users →
      (s.holders : ℤ) + (s.failures : ℤ) = s.users →
      (s.conn = false → s.holders = 0) →
      0 ≤ (runConn s t).users
      ∧ ((runConn s t).holders : ℤ) + ((runConn s t).failures : ℤ) = (runConn s t).users
      ∧ ((runConn s t).conn = false → (runConn s t).holders = 0)
      ∧ (runConn s t).constructsHeld = s.constructsHeld := by
  intro t
  induction t with
  | nil => intro s _ h1 h2 h3; exact ⟨h1, h2, h3, rfl⟩
  | cons e rest ih =>
    intro s hwf h1 h2 h3
    simp only [wfConn, Bool.and_eq_true] at hwf
    obtain ⟨hg, hrest⟩ := hwf
    simp only [runConn]
    have step :
        0 ≤ (connStep s e).users
        ∧ ((connStep s e).holders : ℤ) + ((connStep s e).failures : ℤ)
            = (connStep s e).users
        ∧ ((connStep s e).conn = false → (connStep s e).holders = 0)
        ∧ (connStep s e).constructsHeld = s.constructsHeld := by
      cases e with
      | acquire ok =>
        cases hc : s.conn with
        | true =>
          refine ⟨?_, ?_, ?_, ?_⟩ <;> simp [connStep, hc] <;> omega
        | false =>
          have h0 : s.holders = 0 := h3 hc
          cases ok <;>
            (refine ⟨?_, ?_, ?_, ?_⟩ <;> simp [connStep, hc, h0] <;> omega)
      | release =>
        have hg2 : 0 < s.holders := by simpa using hg
        have hconn : s.conn = true := by
          cases hcc : s.conn with
          | true => rfl
          | false => exact absurd (h3 hcc) (by omega)
        simp only [connStep, hconn]
        by_cases hif : s.users - 1 ≤ 0
        · rw [if_pos ⟨hif, by simp [hconn]⟩]
          refine ⟨by simp, ?_, by intro _; simp; omega, rfl⟩
          simp
          omega
        · rw [if_neg (by
            intro hcon
            exact hif hcon.1)]
          refine ⟨?_, ?_, ?_, rfl⟩
          · simp; omega
          · simp; omega
          · intro hcf
            exact absurd hcf (by simp)
    obtain ⟨hs1, hs2, hs3, hs4⟩ := step
    have hmain := ih (connStep s e) hrest hs1 hs2 hs3
    exact ⟨hmain.1, hmain.2.1, hmain.2.2.1, hmain.2.2.2.trans hs4⟩

lemma runConn_invariant_init (t : List ConnEvent) (hwf : wfConn connInit t = true) :
    0 ≤ (runConn connInit t).users
    ∧ ((runConn connInit t).holders : ℤ) + ((runConn connInit t).failures : ℤ)
        = (runConn connInit t).users
    ∧ ((runConn connInit t).conn = false → (runConn connInit t).holders = 0)
    ∧ (runConn connInit t).constructsHeld = 0 :=
  runConn_invariant t connInit hwf (le_refl 0) (by simp [connInit]) (fun _ => rfl)

lemma connStep_acquire_closes (s : ConnState) (ok : Bool) :
    (connStep s (.acquire ok)).closes = s.closes := by
  simp only [connStep]
  split_ifs <;> rfl

lemma wfConn_single_release (s : ConnState) :
    wfConn s [ConnEvent.release] = true ↔ 0 < s.holders := by
  simp [wfConn]

lemma connStep_release_closes (s : ConnState) (hg2 : 0 < s.holders)
    (hinv : (s.holders : ℤ) + (s.failures : ℤ) = s.users) (hconn : s.conn = true) :
    (connStep s .release).closes = s.closes + (if s.users = 1 then 1 else 0)
    ∧ ((connStep s .release).closes ≠ s.closes →
        (connStep s .release).users = 0 ∧ s.users = 1) := by
  have hu1 : 1 ≤ s.users := by omega
  simp only [connStep]
  by_cases hu : s.users = 1
  · rw [if_pos ⟨by omega, hconn⟩]
    exact ⟨by simp [hu], fun _ => ⟨rfl, hu⟩⟩
  · rw [if_neg (by
      intro hcon
      have h1 := hcon.1
      omega)]
    exact ⟨by simp [hu], fun hne => absurd rfl hne⟩

/-- C4: along every trace in which each release is performed by a caller
whose acquire returned a usable handle, the reference count is never
negative, no construction ever happens while a reference is held (so the
physical connection is constructed at most once while any reference is
held), the handle stays live while references are held, a release closes
the connection exactly when the count transitions from 1 to 0, and any step
that closes does so at that transition (never while the count is still
positive). -/
theorem C4_refcounted_lifecycle :
    (∀ t : List ConnEvent, wfConn connInit t = true → 0 ≤ (runConn connInit t).users)
    ∧ (∀ t : List ConnEvent, wfConn connInit t = true →
        (runConn connInit t).constructsHeld = 0)
    ∧ (∀ t : List ConnEvent, wfConn connInit t = true →
        0 < (runConn connInit t).holders → (runConn connInit t).conn = true)
    ∧ (∀ t : List ConnEvent, wfConn connInit (t ++ [ConnEvent.release]) = true →
        (runConn connInit (t ++ [ConnEvent.release])).closes
          = (runConn connInit t).closes
            + (if (runConn connInit t).users = 1 then 1 else 0))
    ∧ (∀ (t : List ConnEvent) (e : ConnEvent), wfConn connInit (t ++ [e]) = true →
        (runConn connInit (t ++ [e])).closes ≠ (runConn connInit t).closes →
        (runConn connInit (t ++ [e])).users = 0 ∧ (runConn connInit t).users = 1) := by
  refine ⟨fun t h => (runConn_invariant_init t h).1,
          fun t h => (runConn_invariant_init t h).2.2.2,
          ?_, ?_, ?_⟩
  · intro t h hh
    cases hcc : (runConn connInit t).conn with
    | true => rfl
    | false => exact absurd ((runConn_invariant_init t h).2.2.1 hcc) (by omega)
  · intro t hwf
    rw [wfConn_append] at hwf
    simp only [Bool.and_eq_true] at hwf
    obtain ⟨hw1, hw2⟩ := hwf
    have hw2' : 0 < (runConn connInit t).holders := (wfConn_single_release _).mp hw2
    have hinv := runConn_invariant_init t hw1
    have hconn : (runConn connInit t).conn = true := by
      cases hcc : (runConn connInit t).conn with
      | true => rfl
      | false => exact absurd (hinv.2.2.1 hcc) (by omega)
    rw [runConn_append]
    simp only [runConn]
    exact (connStep_release_closes _ hw2' hinv.2.1 hconn).1
  · intro t e hwf hne
    rw [wfConn_append] at hwf
    simp only [Bool.and_eq_true] at hwf
    obtain ⟨hw1, hw2⟩ := hwf
    cases e with
    | acquire ok =>
      rw [runConn_append] at hne
      simp only [runConn] at hne
      exact absurd (connStep_acquire_closes _ ok) hne
    | release =>
      have hw2' : 0 < (runConn connInit t).holders := (wfConn_single_release _).mp hw2
      have hinv := runConn_invariant_init t hw1
      have hconn : (runConn connInit t).conn = true := by
        cases hcc : (runConn connInit t).conn with
        | true => rfl
        | false => exact absurd (hinv.2.2.1 hcc) (by omega)
      rw [runConn_append] at hne ⊢
      simp only [runConn] at hne ⊢
      exact (connStep_release_closes _ hw2' hinv.2.1 hconn).2 hne

/-- Witness for `C4_refcounted_lifecycle` on the trace acquire-then-release:
the single release transitions the count from 1 to 0 and closes once. -/
theorem C4_refcounted_lifecycle_witness :
    (runConn connInit ([ConnEvent.acquire true] ++ [ConnEvent.release])).closes
      = (runConn connInit [ConnEvent.acquire true]).closes
        + (if (runConn connInit [ConnEvent.acquire true]).users = 1 then 1 else 0)
    ∧ (runConn connInit [ConnEvent.acquire true]).constructsHeld = 0 :=
  ⟨C4_refcounted_lifecycle.2.2.2.1 [ConnEvent.acquire true] (by decide),
   C4_refcounted_lifecycle.2.1 [ConnEvent.acquire true] (by decide)⟩

/-- C10: every `_get_shared_connection` call increments `_shared_conn_users`
by exactly one, even when construction fails and the returned handle is
`None` (in which case `failures` also increments and the handle stays
absent); consequently the count equals holders plus failed acquisitions, it
strictly exceeds the number of holders of a usable handle as soon as one
acquisition has failed, and the inflation is permanent because failures
never decrease. -/
theorem C10_acquire_counts_attempts :
    (∀ (t : List ConnEvent) (ok : Bool),
        (runConn connInit (t ++ [ConnEvent.acquire ok])).users
          = (runConn connInit t).users + 1)
    ∧ (∀ t : List ConnEvent, (runConn connInit t).conn = false →
        (runConn connInit (t ++ [ConnEvent.acquire false])).conn = false
        ∧ (runConn connInit (t ++ [ConnEvent.acquire false])).failures
            = (runConn connInit t).failures + 1)
    ∧ (∀ t : List ConnEvent, wfConn connInit t = true →
        ((runConn connInit t).holders : ℤ) + ((runConn connInit t).failures : ℤ)
          = (runConn connInit t).users)
    ∧ (∀ t : List ConnEvent, wfConn connInit t = true →
        0 < (runConn connInit t).failures →
        ((runConn connInit t).holders : ℤ) < (runConn connInit t).users)
    ∧ (∀ t1 t2 : List ConnEvent,
        (runConn connInit t1).failures ≤ (runConn connInit (t1 ++ t2)).failures) := by
  refine ⟨?_, ?_, fun t h => (runConn_invariant_init t h).2.1, ?_, ?_⟩
  · intro t ok
    rw [runConn_append]
    simp only [runConn]
    exact connStep_acquire_users _ ok
  · intro t hc
    rw [runConn_append]
    simp only [runConn]
    exact ⟨by simp [connStep, hc], by simp [connStep, hc]⟩
  · intro t h hf
    have hinv := (runConn_invariant_init t h).2.1
    omega
  · intro t1 t2
    rw [runConn_append]
    exact runConn_failures_le t2 _

/-- Witness for `C10_acquire_counts_attempts`: after one failed acquire the
count is 1 while no usable handle is held, and a second failed acquire
increments the failure count again. -/
theorem C10_acquire_counts_attempts_witness :
    ((runConn connInit ([ConnEvent.acquire false] ++ [ConnEvent.acquire false])).failures
        = (runConn connInit [ConnEvent.acquire false]).failures + 1)
    ∧ ((runConn connInit [ConnEvent.acquire false]).holders : ℤ)
        < (runConn connInit [ConnEvent.acquire false]).users :=
  ⟨(C10_acquire_counts_attempts.2.1 [ConnEvent.acquire false] (by decide)).2,
   C10_acquire_counts_attempts.2.2.2.1 [ConnEvent.acquire false] (by decide) (by decide)⟩
